import Mathlib

/-!
Verification of the Go-Back-N ARQ client/server pair (gbn_client.py,
gbn_server.py, gbn_demo.py) through a shallow embedding in Lean.

The sender (`GBNClient`) and receiver (`GBNServer`) state machines are
translated operation by operation from the Python source.  Python dicts
keyed by sequence number are embedded as association lists preserving
insertion order; the Bernoulli loss simulation and the fallible socket
send are made explicit oracle parameters (`coin` = outcome of the random
trial, `sendOk` = whether the datagram send succeeds).  Logging is
peripheral in the source; the observable transmission attempts are
recorded in an explicit `trace` field so that statements such as "every
outstanding packet is retransmitted" can be phrased about the events the
code performs.
-/

namespace GBN

/-- Association-list embedding of the Python dict `seq_num -> payload`. -/
abbrev Dict := List (Nat × String)

/-- Membership test `seq_num in dict`. -/
def dmem (k : Nat) (d : Dict) : Bool :=
  d.any (fun p => p.1 == k)

/-- Python dict assignment `d[k] = v`: replace in place when present,
append otherwise (insertion order preserved, as in CPython). -/
def dinsert (k : Nat) (v : String) (d : Dict) : Dict :=
  if dmem k d then d.map (fun p => if p.1 == k then (k, v) else p)
  else d ++ [(k, v)]

/-- Python `del d[k]` (callers of this model always check membership first). -/
def derase (k : Nat) (d : Dict) : Dict :=
  d.filter (fun p => p.1 != k)

/-- Python `d[k]` lookup; callers in the embedded code only use it after a
membership check, so the default is never observed. -/
def dlookup (k : Nat) (d : Dict) : String :=
  ((d.find? (fun p => p.1 == k)).map Prod.snd).getD ""

/-- The keys of the dict, in insertion order. -/
def dkeys (d : Dict) : List Nat :=
  d.map Prod.fst

/-- Observable transmission events of the client (instrumentation of
`send_packet`): a packet handed to the transport, a packet swallowed by the
loss simulation, or a failed socket send.  Each carries the
`is_retransmission` flag the call was made with. -/
inductive Event where
  | sent (seq : Nat) (retx : Bool)
  | dropped (seq : Nat) (retx : Bool)
  | sendFail (seq : Nat) (retx : Bool)
deriving DecidableEq

/-- Sender state of `GBNClient` (gbn_client.py).  `lossPos` embeds the test
`loss_probability > 0`; per-packet `threading.Timer` objects are abstracted
to the set (insertion-ordered list) of sequence numbers with an armed
timer. -/
structure GBNClient where
  window_size : Nat
  lossPos : Bool
  base : Nat
  next_seq_num : Nat
  window : Dict
  timers : List Nat
  packets_sent : Nat
  retransmissions : Nat
  acks_received : Nat
  packets_lost : Nat
  running : Bool
  trace : List Event
deriving DecidableEq

/-- `GBNClient.__init__`, with `running := true` as set at the top of
`send_data`. -/
def initClient (ws : Nat) (lossPos : Bool) : GBNClient :=
  { window_size := ws, lossPos := lossPos, base := 0, next_seq_num := 0,
    window := [], timers := [], packets_sent := 0, retransmissions := 0,
    acks_received := 0, packets_lost := 0, running := true, trace := [] }

/-- `GBNClient.send_packet` (includes `simulate_packet_loss`):
`coin` is the outcome of `random.random() < loss_probability`,
`sendOk` whether `socket.sendto` succeeds. -/
def send_packet (c : GBNClient) (seq : Nat) (_data : String)
    (is_retransmission : Bool) (coin sendOk : Bool) : GBNClient :=
  let lost := c.lossPos && coin
  let c1 := if lost then { c with packets_lost := c.packets_lost + 1 } else c
  if lost then
    { c1 with trace := c1.trace ++ [Event.dropped seq is_retransmission] }
  else if sendOk then
    let c2 := { c1 with packets_sent := c1.packets_sent + 1,
                        trace := c1.trace ++ [Event.sent seq is_retransmission] }
    if is_retransmission then
      { c2 with retransmissions := c2.retransmissions + 1 }
    else c2
  else
    { c1 with trace := c1.trace ++ [Event.sendFail seq is_retransmission] }

/-- The one event a `send_packet` call appends, as a function of the
oracles. -/
def sendEvent (lossPos coin sendOk : Bool) (seq : Nat) (retx : Bool) : Event :=
  if lossPos && coin then Event.dropped seq retx
  else if sendOk then Event.sent seq retx
  else Event.sendFail seq retx

/-- `GBNClient.start_timer`: cancel any prior timer for `seq` and arm a
fresh one (membership effect on the timer map). -/
def start_timer (c : GBNClient) (seq : Nat) : GBNClient :=
  { c with timers := if c.timers.contains seq then c.timers
                     else c.timers ++ [seq] }

/-- `GBNClient.stop_timer`: cancel and delete the timer for `seq` when
present. -/
def stop_timer (c : GBNClient) (seq : Nat) : GBNClient :=
  if c.timers.contains seq then
    { c with timers := c.timers.filter (fun x => x != seq) }
  else c

/-- Body of the retransmission loop of `timeout_handler`
(`if i in self.window: send_packet(i, self.window[i], True); start_timer(i)`). -/
def timeoutBody (o : Nat → Bool × Bool) (acc : GBNClient) (i : Nat) : GBNClient :=
  if dmem i acc.window then
    start_timer (send_packet acc i (dlookup i acc.window) true (o i).1 (o i).2) i
  else acc

/-- `GBNClient.timeout_handler`: if still running, retransmit every packet
of `range(base, next_seq_num)` still in the window and re-arm its timer.
The fired sequence number `_seq` is only used for logging in the source.
`o` supplies the loss-coin/send-success oracle pair per sequence number. -/
def timeout_handler (c : GBNClient) (_seq : Nat) (o : Nat → Bool × Bool) : GBNClient :=
  if c.running then
    (List.range' c.base (c.next_seq_num - c.base)).foldl (timeoutBody o) c
  else c

/-- Body of the cumulative-ACK loop of `receive_acks`
(`stop_timer(seq); if seq in self.window: del self.window[seq]`). -/
def ackBody (acc : GBNClient) (s : Nat) : GBNClient :=
  if dmem s (stop_timer acc s).window then
    { stop_timer acc s with window := derase s (stop_timer acc s).window }
  else stop_timer acc s

/-- One iteration of the ACK-receiving loop of `GBNClient.receive_acks`
for a decoded ACK number: count it, and when `ack_num >= base` cancel
timers and window entries for `range(base, ack_num + 1)` and slide the
base to `ack_num + 1`. -/
def on_ack (c : GBNClient) (ack_num : Nat) : GBNClient :=
  let c0 := { c with acks_received := c.acks_received + 1 }
  if c0.base ≤ ack_num then
    let c1 := (List.range' c0.base (ack_num + 1 - c0.base)).foldl ackBody c0
    { c1 with base := ack_num + 1 }
  else c0

/-- One window-filling iteration of the inner loop of `GBNClient.send_data`:
when the window has free capacity, record the payload in the window, send
packet `next_seq_num`, arm its timer and advance `next_seq_num`. -/
def send_step (c : GBNClient) (data : String) (coin sendOk : Bool) : GBNClient :=
  if c.window.length < c.window_size then
    let c1 := { c with window := dinsert c.next_seq_num data c.window }
    let c2 := send_packet c1 c1.next_seq_num data false coin sendOk
    let c3 := start_timer c2 c2.next_seq_num
    { c3 with next_seq_num := c3.next_seq_num + 1 }
  else c

/-- The sequence numbers of `range(base, next_seq_num)` present in the
in-flight window: exactly those `timeout_handler` retransmits. -/
def outstandingSeqs (c : GBNClient) : List Nat :=
  (List.range' c.base (c.next_seq_num - c.base)).filter (fun i => dmem i c.window)

/-- Sender states reachable by any interleaving of window-filling steps,
ACK-processing steps (with an arbitrary received ACK number, as the code
accepts any datagram) and timer firings. -/
inductive Reachable : GBNClient → Prop where
  | init : ∀ ws lp, Reachable (initClient ws lp)
  | send : ∀ c data coin sendOk, Reachable c →
      Reachable (send_step c data coin sendOk)
  | ack : ∀ c a, Reachable c → Reachable (on_ack c a)
  | fire : ∀ c s o, Reachable c → Reachable (timeout_handler c s o)

/-- Sender states reachable when every processed ACK is conforming
(acknowledges only sequence numbers already assigned:
`ack_num < next_seq_num`), as produced by the repository's receiver. -/
inductive ReachableConf : GBNClient → Prop where
  | init : ∀ ws lp, ReachableConf (initClient ws lp)
  | send : ∀ c data coin sendOk, ReachableConf c →
      ReachableConf (send_step c data coin sendOk)
  | ack : ∀ c a, a < c.next_seq_num → ReachableConf c →
      ReachableConf (on_ack c a)
  | fire : ∀ c s o, ReachableConf c → ReachableConf (timeout_handler c s o)

/-- The window-shape invariant of the sender: the in-flight keys are
exactly `[base, next_seq_num)` in order, and the window respects the
configured capacity. -/
def Inv (c : GBNClient) : Prop :=
  c.base ≤ c.next_seq_num ∧
  c.next_seq_num - c.base ≤ c.window_size ∧
  dkeys c.window = List.range' c.base (c.next_seq_num - c.base)

/-! ### Basic lemmas about the dictionary embedding -/

lemma dmem_iff {k : Nat} {d : Dict} : dmem k d = true ↔ k ∈ dkeys d := by
  simp [dmem, dkeys, List.any_eq_true]

lemma dmem_false_iff {k : Nat} {d : Dict} : dmem k d = false ↔ k ∉ dkeys d := by
  rw [← Bool.not_eq_true, not_iff_not]
  exact dmem_iff

lemma dkeys_append (d₁ d₂ : Dict) : dkeys (d₁ ++ d₂) = dkeys d₁ ++ dkeys d₂ := by
  simp [dkeys]

lemma dinsert_of_not_mem {k : Nat} {d : Dict} (h : dmem k d = false) (v : String) :
    dinsert k v d = d ++ [(k, v)] := by
  simp [dinsert, h]

lemma dkeys_filter (p : Nat → Bool) (d : Dict) :
    dkeys (d.filter (fun q => p q.1)) = (dkeys d).filter p := by
  simp [dkeys, List.filter_map]
  rfl

/-! ### Field-preservation lemmas for the elementary sender operations -/

@[simp] lemma send_packet_window (c : GBNClient) (seq : Nat) (d : String)
    (r coin so : Bool) : (send_packet c seq d r coin so).window = c.window := by
  unfold send_packet
  cases h1 : (c.lossPos && coin) <;> cases so <;> cases r <;> simp

@[simp] lemma send_packet_timers (c : GBNClient) (seq : Nat) (d : String)
    (r coin so : Bool) : (send_packet c seq d r coin so).timers = c.timers := by
  unfold send_packet
  cases h1 : (c.lossPos && coin) <;> cases so <;> cases r <;> simp

@[simp] lemma send_packet_base (c : GBNClient) (seq : Nat) (d : String)
    (r coin so : Bool) : (send_packet c seq d r coin so).base = c.base := by
  unfold send_packet
  cases h1 : (c.lossPos && coin) <;> cases so <;> cases r <;> simp

@[simp] lemma send_packet_next (c : GBNClient) (seq : Nat) (d : String)
    (r coin so : Bool) :
    (send_packet c seq d r coin so).next_seq_num = c.next_seq_num := by
  unfold send_packet
  cases h1 : (c.lossPos && coin) <;> cases so <;> cases r <;> simp

@[simp] lemma send_packet_running (c : GBNClient) (seq : Nat) (d : String)
    (r coin so : Bool) : (send_packet c seq d r coin so).running = c.running := by
  unfold send_packet
  cases h1 : (c.lossPos && coin) <;> cases so <;> cases r <;> simp

@[simp] lemma send_packet_ws (c : GBNClient) (seq : Nat) (d : String)
    (r coin so : Bool) :
    (send_packet c seq d r coin so).window_size = c.window_size := by
  unfold send_packet
  cases h1 : (c.lossPos && coin) <;> cases so <;> cases r <;> simp

@[simp] lemma send_packet_lossPos (c : GBNClient) (seq : Nat) (d : String)
    (r coin so : Bool) : (send_packet c seq d r coin so).lossPos = c.lossPos := by
  unfold send_packet
  cases h1 : (c.lossPos && coin) <;> cases so <;> cases r <;> simp

@[simp] lemma send_packet_acks (c : GBNClient) (seq : Nat) (d : String)
    (r coin so : Bool) :
    (send_packet c seq d r coin so).acks_received = c.acks_received := by
  unfold send_packet
  cases h1 : (c.lossPos && coin) <;> cases so <;> cases r <;> simp

@[simp] lemma send_packet_trace (c : GBNClient) (seq : Nat) (d : String)
    (r coin so : Bool) :
    (send_packet c seq d r coin so).trace
      = c.trace ++ [sendEvent c.lossPos coin so seq r] := by
  unfold send_packet sendEvent
  cases h1 : (c.lossPos && coin) <;> cases so <;> cases r <;> simp

/-- Counter effect of a single `send_packet` call: the packet counter
advances exactly on a successful send, and the retransmission counter
advances exactly on a successful send flagged as a retransmission. -/
lemma send_packet_counters (c : GBNClient) (seq : Nat) (d : String)
    (r coin so : Bool) :
    (send_packet c seq d r coin so).packets_sent
        = c.packets_sent + (if (!(c.lossPos && coin)) && so then 1 else 0) ∧
    (send_packet c seq d r coin so).retransmissions
        = c.retransmissions + (if ((!(c.lossPos && coin)) && so) && r then 1 else 0) := by
  unfold send_packet
  cases h1 : (c.lossPos && coin) <;> cases so <;> cases r <;> simp

@[simp] lemma start_timer_window (c : GBNClient) (s : Nat) :
    (start_timer c s).window = c.window := rfl

@[simp] lemma start_timer_base (c : GBNClient) (s : Nat) :
    (start_timer c s).base = c.base := rfl

@[simp] lemma start_timer_next (c : GBNClient) (s : Nat) :
    (start_timer c s).next_seq_num = c.next_seq_num := rfl

@[simp] lemma start_timer_trace (c : GBNClient) (s : Nat) :
    (start_timer c s).trace = c.trace := rfl

@[simp] lemma start_timer_sent (c : GBNClient) (s : Nat) :
    (start_timer c s).packets_sent = c.packets_sent := rfl

@[simp] lemma start_timer_retx (c : GBNClient) (s : Nat) :
    (start_timer c s).retransmissions = c.retransmissions := rfl

@[simp] lemma start_timer_acks (c : GBNClient) (s : Nat) :
    (start_timer c s).acks_received = c.acks_received := rfl

@[simp] lemma start_timer_running (c : GBNClient) (s : Nat) :
    (start_timer c s).running = c.running := rfl

@[simp] lemma start_timer_ws (c : GBNClient) (s : Nat) :
    (start_timer c s).window_size = c.window_size := rfl

@[simp] lemma start_timer_lossPos (c : GBNClient) (s : Nat) :
    (start_timer c s).lossPos = c.lossPos := rfl

lemma mem_start_timer_timers {j : Nat} (c : GBNClient) (s : Nat) :
    j ∈ (start_timer c s).timers ↔ j ∈ c.timers ∨ j = s := by
  unfold start_timer
  by_cases h : s ∈ c.timers
  · rw [if_pos (by simpa using h)]
    constructor
    · exact Or.inl
    · rintro (hj | rfl)
      · exact hj
      · exact h
  · rw [if_neg (by simpa using h)]
    simp

lemma stop_timer_timers (c : GBNClient) (s : Nat) :
    (stop_timer c s).timers = c.timers.filter (fun x => x != s) := by
  unfold stop_timer
  by_cases h : s ∈ c.timers
  · simp [h]
  · rw [if_neg (by simpa using h)]
    refine (List.filter_eq_self.mpr ?_).symm
    intro x hx
    have hne : x ≠ s := fun heq => h (heq ▸ hx)
    simpa using hne

@[simp] lemma stop_timer_window (c : GBNClient) (s : Nat) :
    (stop_timer c s).window = c.window := by
  unfold stop_timer
  by_cases h : c.timers.contains s = true
  · rw [if_pos h]
  · rw [if_neg h]

@[simp] lemma stop_timer_base (c : GBNClient) (s : Nat) :
    (stop_timer c s).base = c.base := by
  unfold stop_timer; split <;> rfl

@[simp] lemma stop_timer_next (c : GBNClient) (s : Nat) :
    (stop_timer c s).next_seq_num = c.next_seq_num := by
  unfold stop_timer; split <;> rfl

@[simp] lemma stop_timer_ws (c : GBNClient) (s : Nat) :
    (stop_timer c s).window_size = c.window_size := by
  unfold stop_timer; split <;> rfl

@[simp] lemma stop_timer_lossPos (c : GBNClient) (s : Nat) :
    (stop_timer c s).lossPos = c.lossPos := by
  unfold stop_timer; split <;> rfl

@[simp] lemma stop_timer_running (c : GBNClient) (s : Nat) :
    (stop_timer c s).running = c.running := by
  unfold stop_timer; split <;> rfl

@[simp] lemma stop_timer_trace (c : GBNClient) (s : Nat) :
    (stop_timer c s).trace = c.trace := by
  unfold stop_timer; split <;> rfl

@[simp] lemma stop_timer_sent (c : GBNClient) (s : Nat) :
    (stop_timer c s).packets_sent = c.packets_sent := by
  unfold stop_timer; split <;> rfl

@[simp] lemma stop_timer_retx (c : GBNClient) (s : Nat) :
    (stop_timer c s).retransmissions = c.retransmissions := by
  unfold stop_timer; split <;> rfl

@[simp] lemma stop_timer_acks (c : GBNClient) (s : Nat) :
    (stop_timer c s).acks_received = c.acks_received := by
  unfold stop_timer; split <;> rfl

@[simp] lemma stop_timer_lost (c : GBNClient) (s : Nat) :
    (stop_timer c s).packets_lost = c.packets_lost := by
  unfold stop_timer; split <;> rfl

/-! ### The cumulative-ACK loop as an iterated filter -/

lemma mem_dkeys_of_mem {p : Nat × String} {d : Dict} (hp : p ∈ d) :
    p.1 ∈ dkeys d :=
  List.mem_map.mpr ⟨p, hp, rfl⟩

lemma ackBody_window (acc : GBNClient) (s : Nat) :
    (ackBody acc s).window = acc.window.filter (fun p => p.1 != s) := by
  unfold ackBody
  by_cases h : dmem s (stop_timer acc s).window = true
  · rw [if_pos h]
    simp [derase]
  · rw [if_neg h]
    rw [stop_timer_window] at h ⊢
    refine (List.filter_eq_self.mpr ?_).symm
    intro p hp
    have hne : p.1 ≠ s := by
      intro he
      exact h (dmem_iff.mpr (he ▸ mem_dkeys_of_mem hp))
    simpa using hne

lemma ackBody_timers (acc : GBNClient) (s : Nat) :
    (ackBody acc s).timers = acc.timers.filter (fun x => x != s) := by
  unfold ackBody
  by_cases h : dmem s (stop_timer acc s).window = true
  · rw [if_pos h]
    exact stop_timer_timers acc s
  · rw [if_neg h]
    exact stop_timer_timers acc s

@[simp] lemma ackBody_base (acc : GBNClient) (s : Nat) :
    (ackBody acc s).base = acc.base := by
  unfold ackBody; split <;> simp

@[simp] lemma ackBody_next (acc : GBNClient) (s : Nat) :
    (ackBody acc s).next_seq_num = acc.next_seq_num := by
  unfold ackBody; split <;> simp

@[simp] lemma ackBody_ws (acc : GBNClient) (s : Nat) :
    (ackBody acc s).window_size = acc.window_size := by
  unfold ackBody; split <;> simp

@[simp] lemma ackBody_lossPos (acc : GBNClient) (s : Nat) :
    (ackBody acc s).lossPos = acc.lossPos := by
  unfold ackBody; split <;> simp

@[simp] lemma ackBody_running (acc : GBNClient) (s : Nat) :
    (ackBody acc s).running = acc.running := by
  unfold ackBody; split <;> simp

@[simp] lemma ackBody_trace (acc : GBNClient) (s : Nat) :
    (ackBody acc s).trace = acc.trace := by
  unfold ackBody; split <;> simp

@[simp] lemma ackBody_sent (acc : GBNClient) (s : Nat) :
    (ackBody acc s).packets_sent = acc.packets_sent := by
  unfold ackBody; split <;> simp

@[simp] lemma ackBody_retx (acc : GBNClient) (s : Nat) :
    (ackBody acc s).retransmissions = acc.retransmissions := by
  unfold ackBody; split <;> simp

@[simp] lemma ackBody_acks (acc : GBNClient) (s : Nat) :
    (ackBody acc s).acks_received = acc.acks_received := by
  unfold ackBody; split <;> simp

@[simp] lemma ackBody_lost (acc : GBNClient) (s : Nat) :
    (ackBody acc s).packets_lost = acc.packets_lost := by
  unfold ackBody; split <;> simp

lemma foldl_ackBody_fields (L : List Nat) : ∀ acc : GBNClient,
    (L.foldl ackBody acc).base = acc.base ∧
    (L.foldl ackBody acc).next_seq_num = acc.next_seq_num ∧
    (L.foldl ackBody acc).window_size = acc.window_size ∧
    (L.foldl ackBody acc).lossPos = acc.lossPos ∧
    (L.foldl ackBody acc).running = acc.running ∧
    (L.foldl ackBody acc).trace = acc.trace ∧
    (L.foldl ackBody acc).packets_sent = acc.packets_sent ∧
    (L.foldl ackBody acc).retransmissions = acc.retransmissions ∧
    (L.foldl ackBody acc).acks_received = acc.acks_received ∧
    (L.foldl ackBody acc).packets_lost = acc.packets_lost := by
  induction L with
  | nil => intro acc; simp
  | cons s L ih =>
    intro acc
    simp only [List.foldl_cons]
    simpa using ih (ackBody acc s)

lemma foldl_ackBody_window (L : List Nat) : ∀ acc : GBNClient,
    (L.foldl ackBody acc).window
      = acc.window.filter (fun p => !(L.contains p.1)) := by
  induction L with
  | nil => intro acc; simp
  | cons s L ih =>
    intro acc
    simp only [List.foldl_cons]
    rw [ih (ackBody acc s), ackBody_window, List.filter_filter]
    refine List.filter_congr ?_
    intro p _
    by_cases h : p.1 = s <;> simp [h, List.contains_cons]

lemma foldl_ackBody_timers (L : List Nat) : ∀ acc : GBNClient,
    (L.foldl ackBody acc).timers
      = acc.timers.filter (fun x => !(L.contains x)) := by
  induction L with
  | nil => intro acc; simp
  | cons s L ih =>
    intro acc
    simp only [List.foldl_cons]
    rw [ih (ackBody acc s), ackBody_timers, List.filter_filter]
    refine List.filter_congr ?_
    intro x _
    by_cases h : x = s <;> simp [h, List.contains_cons]

/-! ### Range arithmetic -/

lemma filter_not_mem_range' (b m n : Nat) (h : m ≤ n) :
    (List.range' b n).filter (fun x => !((List.range' b m).contains x))
      = List.range' (b + m) (n - m) := by
  have hsplit : List.range' b m ++ List.range' (b + m) (n - m)
      = List.range' b n := by
    have happ := List.range'_append b m (n - m) 1
    simp only [one_mul] at happ
    rw [happ]
    congr 1
    omega
  rw [← hsplit, List.filter_append]
  have h1 : (List.range' b m).filter
      (fun x => !((List.range' b m).contains x)) = [] := by
    refine List.filter_eq_nil_iff.mpr ?_
    intro x hx
    simp [hx]
  have h2 : (List.range' (b + m) (n - m)).filter
      (fun x => !((List.range' b m).contains x)) = List.range' (b + m) (n - m) := by
    refine List.filter_eq_self.mpr ?_
    intro x hx
    have hx1 : b + m ≤ x := (List.mem_range'_1.mp hx).1
    have hnotm : x ∉ List.range' b m := by
      intro hmem
      have := (List.mem_range'_1.mp hmem).2
      omega
    simp [hnotm]
  rw [h1, h2, List.nil_append]

/-! ### Characterization of `on_ack` -/

lemma on_ack_of_lt {c : GBNClient} {a : Nat} (h : a < c.base) :
    on_ack c a = { c with acks_received := c.acks_received + 1 } := by
  unfold on_ack
  rw [if_neg (by simp; omega)]

lemma on_ack_of_ge {c : GBNClient} {a : Nat} (h : c.base ≤ a) :
    on_ack c a =
      { (List.range' c.base (a + 1 - c.base)).foldl ackBody
          { c with acks_received := c.acks_received + 1 } with base := a + 1 } := by
  unfold on_ack
  rw [if_pos (by simpa using h)]

lemma on_ack_base (c : GBNClient) (a : Nat) :
    (on_ack c a).base = if c.base ≤ a then a + 1 else c.base := by
  by_cases h : c.base ≤ a
  · rw [on_ack_of_ge h, if_pos h]
  · rw [on_ack_of_lt (by omega), if_neg h]

/-- `on_ack` never changes anything except `acks_received`, `base`, the
window and the timer set. -/
lemma on_ack_preserves (c : GBNClient) (a : Nat) :
    (on_ack c a).next_seq_num = c.next_seq_num ∧
    (on_ack c a).window_size = c.window_size ∧
    (on_ack c a).lossPos = c.lossPos ∧
    (on_ack c a).running = c.running ∧
    (on_ack c a).trace = c.trace ∧
    (on_ack c a).packets_sent = c.packets_sent ∧
    (on_ack c a).retransmissions = c.retransmissions ∧
    (on_ack c a).packets_lost = c.packets_lost ∧
    (on_ack c a).acks_received = c.acks_received + 1 := by
  by_cases h : c.base ≤ a
  · rw [on_ack_of_ge h]
    have hf := foldl_ackBody_fields (List.range' c.base (a + 1 - c.base))
      { c with acks_received := c.acks_received + 1 }
    simp only at hf ⊢
    tauto
  · rw [on_ack_of_lt (by omega)]
    simp

lemma on_ack_window_of_ge {c : GBNClient} {a : Nat} (h : c.base ≤ a) :
    (on_ack c a).window
      = c.window.filter
          (fun p => !((List.range' c.base (a + 1 - c.base)).contains p.1)) := by
  rw [on_ack_of_ge h]
  have := foldl_ackBody_window (List.range' c.base (a + 1 - c.base))
    { c with acks_received := c.acks_received + 1 }
  simpa using this

lemma on_ack_timers_of_ge {c : GBNClient} {a : Nat} (h : c.base ≤ a) :
    (on_ack c a).timers
      = c.timers.filter
          (fun x => !((List.range' c.base (a + 1 - c.base)).contains x)) := by
  rw [on_ack_of_ge h]
  have := foldl_ackBody_timers (List.range' c.base (a + 1 - c.base))
    { c with acks_received := c.acks_received + 1 }
  simpa using this

/-! ### The retransmission loop of `timeout_handler` -/

lemma timeoutBody_of_mem {acc : GBNClient} {i : Nat} (o : Nat → Bool × Bool)
    (h : dmem i acc.window = true) :
    timeoutBody o acc i
      = start_timer (send_packet acc i (dlookup i acc.window) true (o i).1 (o i).2) i := by
  unfold timeoutBody
  rw [if_pos h]

lemma timeoutBody_of_not_mem {acc : GBNClient} {i : Nat} (o : Nat → Bool × Bool)
    (h : ¬ dmem i acc.window = true) :
    timeoutBody o acc i = acc := by
  unfold timeoutBody
  rw [if_neg h]

lemma foldl_timeoutBody_fields (o : Nat → Bool × Bool) (L : List Nat) :
    ∀ acc : GBNClient,
    (L.foldl (timeoutBody o) acc).window = acc.window ∧
    (L.foldl (timeoutBody o) acc).base = acc.base ∧
    (L.foldl (timeoutBody o) acc).next_seq_num = acc.next_seq_num ∧
    (L.foldl (timeoutBody o) acc).running = acc.running ∧
    (L.foldl (timeoutBody o) acc).window_size = acc.window_size ∧
    (L.foldl (timeoutBody o) acc).lossPos = acc.lossPos ∧
    (L.foldl (timeoutBody o) acc).acks_received = acc.acks_received := by
  induction L with
  | nil => intro acc; simp
  | cons i L ih =>
    intro acc
    simp only [List.foldl_cons]
    have h := ih (timeoutBody o acc i)
    by_cases hm : dmem i acc.window = true
    · rw [timeoutBody_of_mem o hm] at h
      rw [timeoutBody_of_mem o hm]
      simpa using h
    · rw [timeoutBody_of_not_mem o hm] at h
      rw [timeoutBody_of_not_mem o hm]
      exact h

lemma foldl_timeoutBody_trace (o : Nat → Bool × Bool) (L : List Nat) :
    ∀ acc : GBNClient,
    (L.foldl (timeoutBody o) acc).trace
      = acc.trace ++ (L.filter (fun i => dmem i acc.window)).map
          (fun i => sendEvent acc.lossPos (o i).1 (o i).2 i true) := by
  induction L with
  | nil => intro acc; simp
  | cons i L ih =>
    intro acc
    simp only [List.foldl_cons]
    rw [ih (timeoutBody o acc i)]
    by_cases hm : dmem i acc.window = true
    · rw [timeoutBody_of_mem o hm]
      simp [hm, List.filter_cons]
    · rw [timeoutBody_of_not_mem o hm]
      simp only [List.filter_cons]
      rw [if_neg hm]

lemma foldl_timeoutBody_timers (o : Nat → Bool × Bool) (L : List Nat) :
    ∀ (acc : GBNClient) (j : Nat),
    (j ∈ acc.timers → j ∈ (L.foldl (timeoutBody o) acc).timers) ∧
    (j ∈ L → dmem j acc.window = true → j ∈ (L.foldl (timeoutBody o) acc).timers) := by
  induction L with
  | nil =>
    intro acc j
    exact ⟨id, by simp⟩
  | cons i L ih =>
    intro acc j
    simp only [List.foldl_cons]
    constructor
    · intro hj
      by_cases hm : dmem i acc.window = true
      · refine (ih (timeoutBody o acc i) j).1 ?_
        rw [timeoutBody_of_mem o hm]
        refine (mem_start_timer_timers _ _).mpr (Or.inl ?_)
        simpa using hj
      · rw [timeoutBody_of_not_mem o hm]
        exact (ih acc j).1 hj
    · intro hjL hjw
      rcases List.mem_cons.mp hjL with rfl | hjL'
      · refine (ih (timeoutBody o acc j) j).1 ?_
        rw [timeoutBody_of_mem o hjw]
        exact (mem_start_timer_timers _ _).mpr (Or.inr rfl)
      · by_cases hm : dmem i acc.window = true
        · refine (ih (timeoutBody o acc i) j).2 hjL' ?_
          rw [timeoutBody_of_mem o hm]
          simpa using hjw
        · rw [timeoutBody_of_not_mem o hm]
          exact (ih acc j).2 hjL' hjw

lemma foldl_timeoutBody_counters (o : Nat → Bool × Bool) (L : List Nat) :
    ∀ acc : GBNClient, acc.retransmissions ≤ acc.packets_sent →
    (L.foldl (timeoutBody o) acc).retransmissions
      ≤ (L.foldl (timeoutBody o) acc).packets_sent := by
  induction L with
  | nil => intro acc h; simpa using h
  | cons i L ih =>
    intro acc h
    simp only [List.foldl_cons]
    refine ih (timeoutBody o acc i) ?_
    by_cases hm : dmem i acc.window = true
    · rw [timeoutBody_of_mem o hm]
      have hc := send_packet_counters acc i (dlookup i acc.window) true (o i).1 (o i).2
      rcases hc with ⟨h1, h2⟩
      simp only [start_timer_sent, start_timer_retx, h1, h2]
      by_cases hcond : ((!(acc.lossPos && (o i).1)) && (o i).2) = true <;>
        simp [hcond] <;> omega
    · rw [timeoutBody_of_not_mem o hm]
      exact h

lemma foldl_timeoutBody_of_none (o : Nat → Bool × Bool) (L : List Nat) :
    ∀ acc : GBNClient, (∀ i ∈ L, dmem i acc.window = false) →
    L.foldl (timeoutBody o) acc = acc := by
  induction L with
  | nil => intro acc _; rfl
  | cons i L ih =>
    intro acc h
    simp only [List.foldl_cons]
    rw [timeoutBody_of_not_mem o (by simp [h i (List.mem_cons_self i L)])]
    exact ih acc (fun j hj => h j (List.mem_cons_of_mem i hj))

lemma timeout_handler_fields (c : GBNClient) (s : Nat) (o : Nat → Bool × Bool) :
    (timeout_handler c s o).window = c.window ∧
    (timeout_handler c s o).base = c.base ∧
    (timeout_handler c s o).next_seq_num = c.next_seq_num ∧
    (timeout_handler c s o).running = c.running ∧
    (timeout_handler c s o).window_size = c.window_size ∧
    (timeout_handler c s o).lossPos = c.lossPos ∧
    (timeout_handler c s o).acks_received = c.acks_received := by
  unfold timeout_handler
  by_cases h : c.running = true
  · rw [if_pos h]
    exact foldl_timeoutBody_fields o (List.range' c.base (c.next_seq_num - c.base)) c
  · rw [if_neg h]
    tauto

/-! ### `send_step` characterization -/

lemma send_step_of_lt {c : GBNClient} {data : String} {coin sendOk : Bool}
    (h : c.window.length < c.window_size) :
    (send_step c data coin sendOk).window = dinsert c.next_seq_num data c.window ∧
    (send_step c data coin sendOk).base = c.base ∧
    (send_step c data coin sendOk).next_seq_num = c.next_seq_num + 1 ∧
    (send_step c data coin sendOk).window_size = c.window_size ∧
    (send_step c data coin sendOk).retransmissions = c.retransmissions ∧
    c.packets_sent ≤ (send_step c data coin sendOk).packets_sent := by
  unfold send_step
  rw [if_pos h]
  have hc := send_packet_counters { c with window := dinsert c.next_seq_num data c.window }
    c.next_seq_num data false coin sendOk
  rcases hc with ⟨h1, h2⟩
  simp only at h1 h2
  refine ⟨by simp, by simp, by simp, by simp, ?_, ?_⟩
  · simp only [start_timer_retx, h2, Bool.and_false]
    simp
  · simp only [start_timer_sent, h1]
    omega

lemma send_step_of_ge {c : GBNClient} {data : String} {coin sendOk : Bool}
    (h : ¬ c.window.length < c.window_size) :
    send_step c data coin sendOk = c := by
  unfold send_step
  rw [if_neg h]

/-! ### Invariant preservation -/

lemma inv_init (ws : Nat) (lp : Bool) : Inv (initClient ws lp) := by
  refine ⟨Nat.le_refl 0, by simp [initClient], ?_⟩
  simp [initClient, dkeys]

lemma length_window_of_inv {c : GBNClient} (h : Inv c) :
    c.window.length = c.next_seq_num - c.base := by
  have := congrArg List.length h.2.2
  simpa [dkeys] using this

lemma inv_send_step {c : GBNClient} (h : Inv c) (data : String) (coin sendOk : Bool) :
    Inv (send_step c data coin sendOk) := by
  by_cases hg : c.window.length < c.window_size
  · obtain ⟨hw, hb, hn, hws, -, -⟩ := @send_step_of_lt c data coin sendOk hg
    obtain ⟨h1, h2, h3⟩ := h
    have hlen : c.window.length = c.next_seq_num - c.base := length_window_of_inv ⟨h1, h2, h3⟩
    have hnm : dmem c.next_seq_num c.window = false := by
      refine dmem_false_iff.mpr ?_
      rw [h3]
      intro hmem
      have := (List.mem_range'_1.mp hmem).2
      omega
    refine ⟨by omega, by rw [hn, hb, hws]; omega, ?_⟩
    rw [hw, hb, hn, dinsert_of_not_mem hnm, dkeys_append, h3]
    have e1 : c.next_seq_num + 1 - c.base = (c.next_seq_num - c.base) + 1 := by omega
    have e2 : c.base + 1 * (c.next_seq_num - c.base) = c.next_seq_num := by omega
    rw [e1, List.range'_concat, e2]
    rfl
  · rw [send_step_of_ge hg]
    exact h

lemma inv_on_ack_conf {c : GBNClient} {a : Nat} (h : Inv c)
    (ha : a < c.next_seq_num) : Inv (on_ack c a) := by
  obtain ⟨h1, h2, h3⟩ := h
  by_cases hb : c.base ≤ a
  · obtain ⟨hn, hws, -, -, -, -, -, -, -⟩ := on_ack_preserves c a
    have hbase : (on_ack c a).base = a + 1 := by
      rw [on_ack_base, if_pos hb]
    refine ⟨by omega, by omega, ?_⟩
    rw [on_ack_window_of_ge hb, hbase, hn]
    have hkeys : dkeys (c.window.filter
        (fun p => !((List.range' c.base (a + 1 - c.base)).contains p.1)))
        = (dkeys c.window).filter
            (fun x => !((List.range' c.base (a + 1 - c.base)).contains x)) :=
      dkeys_filter (fun x => !((List.range' c.base (a + 1 - c.base)).contains x)) c.window
    rw [hkeys, h3, filter_not_mem_range' c.base (a + 1 - c.base)
      (c.next_seq_num - c.base) (by omega)]
    have e1 : c.base + (a + 1 - c.base) = a + 1 := by omega
    have e2 : c.next_seq_num - c.base - (a + 1 - c.base) = c.next_seq_num - (a + 1) := by
      omega
    rw [e1, e2]
  · rw [on_ack_of_lt (by omega)]
    exact ⟨h1, h2, h3⟩

lemma inv_timeout {c : GBNClient} (h : Inv c) (s : Nat) (o : Nat → Bool × Bool) :
    Inv (timeout_handler c s o) := by
  obtain ⟨hw, hb, hn, -, hws, -, -⟩ := timeout_handler_fields c s o
  exact ⟨by rw [hb, hn]; exact h.1, by rw [hb, hn, hws]; exact h.2.1,
    by rw [hw, hb, hn]; exact h.2.2⟩

/-- Every state reachable with conforming ACKs satisfies the window-shape
invariant. -/
lemma reachableConf_inv {c : GBNClient} (h : ReachableConf c) : Inv c := by
  induction h with
  | init ws lp => exact inv_init ws lp
  | send c data coin sendOk _ ih => exact inv_send_step ih data coin sendOk
  | ack c a ha _ ih => exact inv_on_ack_conf ih ha
  | fire c s o _ ih => exact inv_timeout ih s o

/-- In every reachable sender state the retransmission counter is bounded
by the packet counter. -/
lemma reachable_retx_le_sent {c : GBNClient} (h : Reachable c) :
    c.retransmissions ≤ c.packets_sent := by
  induction h with
  | init ws lp => exact Nat.le_refl 0
  | send c data coin sendOk _ ih =>
    by_cases hg : c.window.length < c.window_size
    · obtain ⟨-, -, -, -, hr, hs⟩ := @send_step_of_lt c data coin sendOk hg
      omega
    · rw [send_step_of_ge hg]
      exact ih
  | ack c a _ ih =>
    obtain ⟨-, -, -, -, -, hs, hr, -, -⟩ := on_ack_preserves c a
    omega
  | fire c s o _ ih =>
    unfold timeout_handler
    by_cases hr : c.running = true
    · rw [if_pos hr]
      exact foldl_timeoutBody_counters o _ c ih
    · rw [if_neg hr]
      exact ih

/-! ### The receiver (gbn_server.py) -/

/-- Observable ACK-transmission events of the server (instrumentation of
`send_ack`): an ACK handed to the transport, an ACK swallowed by the loss
simulation, or a failed socket send.  Each carries its ACK number. -/
inductive AckEvent where
  | acked (n : Int)
  | droppedAck (n : Int)
  | failedAck (n : Int)
deriving DecidableEq

/-- Receiver state of `GBNServer` (gbn_server.py).  `lossPos` embeds
`loss_probability > 0`; message and ACK numbers are integers as in the
source (`last_ack_sent` is initialised to `-1`). -/
structure GBNServer where
  lossPos : Bool
  expected_seq_num : Int
  last_ack_sent : Int
  received_messages : List (Int × String)
  packets_received : Nat
  packets_in_order : Nat
  packets_out_of_order : Nat
  acks_sent : Nat
  acks_lost : Nat
  trace : List AckEvent
deriving DecidableEq

/-- `GBNServer.reset_state` / `__init__`. -/
def initServer (lossPos : Bool) : GBNServer :=
  { lossPos := lossPos, expected_seq_num := 0, last_ack_sent := -1,
    received_messages := [], packets_received := 0, packets_in_order := 0,
    packets_out_of_order := 0, acks_sent := 0, acks_lost := 0, trace := [] }

/-- `GBNServer.send_ack` (includes `simulate_ack_loss`): `coin` is the
outcome of `random.random() < loss_probability`, `sendOk` whether
`socket.sendto` succeeds.  `last_ack_sent` is updated only on a successful
send, as in the source. -/
def send_ack (s : GBNServer) (ack_num : Int) (coin sendOk : Bool) : GBNServer :=
  if s.lossPos && coin then
    { s with acks_lost := s.acks_lost + 1,
             trace := s.trace ++ [AckEvent.droppedAck ack_num] }
  else if sendOk then
    { s with acks_sent := s.acks_sent + 1, last_ack_sent := ack_num,
             trace := s.trace ++ [AckEvent.acked ack_num] }
  else
    { s with trace := s.trace ++ [AckEvent.failedAck ack_num] }

/-- The one event a `send_ack` call appends (the witness that an ACK with
this number was attempted), as a function of the oracles. -/
def ackEvent (lossPos coin sendOk : Bool) (n : Int) : AckEvent :=
  if lossPos && coin then AckEvent.droppedAck n
  else if sendOk then AckEvent.acked n
  else AckEvent.failedAck n

/-- The wire input of `process_packet` after the decode stage:
either the datagram does not decode as JSON, or the decoded record lacks
`seq_num`/`data`, or it is a well-formed packet. -/
inductive WireInput where
  | undecodable
  | missingField
  | ok (seq : Int) (data : String)

/-- `GBNServer.process_packet`: malformed input is caught by the
`except json.JSONDecodeError` / `except KeyError` handlers before any
state was touched (both field reads precede the first counter update), so
it leaves the state unchanged and sends nothing; an in-order packet is
appended to the log, advances the cursor and is ACKed; any other packet
only bumps the out-of-order counter and, when `last_ack_sent >= 0`,
triggers a single duplicate ACK for `last_ack_sent`. -/
def process_packet (s : GBNServer) (input : WireInput) (coin sendOk : Bool) :
    GBNServer :=
  match input with
  | WireInput.undecodable => s
  | WireInput.missingField => s
  | WireInput.ok seq data =>
    if seq = s.expected_seq_num then
      send_ack
        { s with packets_received := s.packets_received + 1,
                 packets_in_order := s.packets_in_order + 1,
                 received_messages := s.received_messages ++ [(seq, data)],
                 expected_seq_num := s.expected_seq_num + 1 }
        seq coin sendOk
    else
      if 0 ≤ s.last_ack_sent then
        send_ack
          { s with packets_received := s.packets_received + 1,
                   packets_out_of_order := s.packets_out_of_order + 1 }
          s.last_ack_sent coin sendOk
      else
        { s with packets_received := s.packets_received + 1,
                 packets_out_of_order := s.packets_out_of_order + 1 }

/-! ### Derived metrics (gbn_demo.py `calculate_advanced_metrics` and the
statistics block of gbn_client.py `print_statistics`) -/

/-- The dictionary returned by
`ProfessionalGBNAnalyzer.calculate_advanced_metrics` (rates are
percentages, as in the source). -/
structure Metrics where
  packets_sent : Nat
  acks_received : Nat
  retransmissions : Nat
  packets_lost : Nat
  messages_count : Nat
  transmission_time : ℚ
  effective_loss_rate : ℚ
  retransmission_rate : ℚ
  protocol_efficiency : ℚ
  throughput : ℚ
  overhead_ratio : ℚ
  timeout_count : Nat
  avg_retransmissions_per_packet : ℚ
  goodput : ℚ
deriving DecidableEq

/-- `calculate_advanced_metrics(client, transmission_time, messages_count)`
as a function of the client counters it reads; real arithmetic is embedded
as exact rational arithmetic. -/
def calculate_advanced_metrics (packets_sent acks_received retransmissions
    packets_lost messages_count : Nat) (transmission_time : ℚ) : Metrics :=
  { packets_sent := packets_sent
    acks_received := acks_received
    retransmissions := retransmissions
    packets_lost := packets_lost
    messages_count := messages_count
    transmission_time := transmission_time
    effective_loss_rate :=
      if 0 < packets_sent + packets_lost then
        (packets_lost : ℚ) / ((packets_sent : ℚ) + (packets_lost : ℚ)) * 100
      else 0
    retransmission_rate :=
      if 0 < messages_count then
        (retransmissions : ℚ) / (messages_count : ℚ) * 100
      else 0
    protocol_efficiency :=
      if 0 < packets_sent then
        (acks_received : ℚ) / (packets_sent : ℚ) * 100
      else 0
    throughput :=
      if 0 < transmission_time then (messages_count : ℚ) / transmission_time
      else 0
    overhead_ratio :=
      if 0 < messages_count then (retransmissions : ℚ) / (messages_count : ℚ)
      else 0
    timeout_count := retransmissions
    avg_retransmissions_per_packet :=
      if 0 < messages_count then (retransmissions : ℚ) / (messages_count : ℚ)
      else 0
    goodput :=
      if 0 < transmission_time then (acks_received : ℚ) / transmission_time
      else 0 }

/-- The loss-rate / retransmission-rate pair printed by
`GBNClient.print_statistics`; the whole block is guarded by
`packets_sent > 0`, so nothing is computed otherwise. -/
def client_printed_rates (packets_sent packets_lost retransmissions : Nat) :
    Option (ℚ × ℚ) :=
  if 0 < packets_sent then
    some ((packets_lost : ℚ) / ((packets_sent : ℚ) + (packets_lost : ℚ)) * 100,
          (retransmissions : ℚ) / (packets_sent : ℚ) * 100)
  else none

/-- Loss rate as the spec's words define it:
`lost / (sent + lost)`, `0` when the denominator is `0`. -/
def specLossRate (lost sent : Nat) : ℚ :=
  if sent + lost = 0 then 0 else (lost : ℚ) / ((sent : ℚ) + (lost : ℚ))

/-- Retransmission rate as the spec's words define it:
`retransmissions / sent`, `0` when the denominator is `0`. -/
def specRetransmissionRate (retransmissions sent : Nat) : ℚ :=
  if sent = 0 then 0 else (retransmissions : ℚ) / (sent : ℚ)

/-- Protocol efficiency as the spec's words define it:
`acks_received / packets_sent`, `0` when the denominator is `0`. -/
def specProtocolEfficiency (acks_received packets_sent : Nat) : ℚ :=
  if packets_sent = 0 then 0 else (acks_received : ℚ) / (packets_sent : ℚ)

/-! ### Concrete states used by witnesses and counterexamples -/

/-- A sender that has filled two packets into a window of size 3. -/
def demoClient : GBNClient :=
  send_step (send_step (initClient 3 false) "a" false true) "b" false true

/-- `demoClient` after the cumulative ACK 0: sequence number 0 is
acknowledged and removed, sequence number 1 is still outstanding. -/
def demoAcked : GBNClient := on_ack demoClient 0

/-- A sender that has sent exactly one packet (sequence number 0). -/
def demoOne : GBNClient := send_step (initClient 3 false) "a" false true

/-- `demoOne` after an ACK for the never-sent sequence number 5:
`base` jumps to 6, past `next_seq_num = 1`. -/
def demoOvershoot : GBNClient := on_ack demoOne 5

/-! ### Claim theorems: the sender -/

/-- C1: while the sender is running, a retransmission timeout firing for
any sequence number `s` retransmits — attempts a send flagged
`is_retransmission = true`, subject to the loss/send oracles — exactly the
sequence numbers of `[base, next_seq_num)` present in the in-flight window
(every one of them whenever the window keys are exactly that interval),
not just `s`, and leaves a timer armed for each of them. -/
theorem timeout_retransmits_whole_window (c : GBNClient) (s : Nat)
    (o : Nat → Bool × Bool) (h : c.running = true) :
    (timeout_handler c s o).trace
      = c.trace ++ (outstandingSeqs c).map
          (fun i => sendEvent c.lossPos (o i).1 (o i).2 i true) ∧
    (∀ i ∈ outstandingSeqs c, i ∈ (timeout_handler c s o).timers) ∧
    (dkeys c.window = List.range' c.base (c.next_seq_num - c.base) →
      outstandingSeqs c = List.range' c.base (c.next_seq_num - c.base)) := by
  unfold timeout_handler outstandingSeqs
  rw [if_pos h]
  refine ⟨?_, ?_, ?_⟩
  · exact foldl_timeoutBody_trace o _ c
  · intro i hi
    have hi' := List.mem_filter.mp hi
    exact (foldl_timeoutBody_timers o _ c i).2 hi'.1 hi'.2
  · intro hk
    refine List.filter_eq_self.mpr ?_
    intro i hi
    exact dmem_iff.mpr (hk ▸ hi)

/-- Witness for C1 at `demoClient` (both sequence numbers 0 and 1
outstanding). -/
theorem timeout_retransmits_whole_window_witness :
    (timeout_handler demoClient 0 (fun _ => (false, true))).trace
      = demoClient.trace ++ (outstandingSeqs demoClient).map
          (fun i => sendEvent demoClient.lossPos false true i true) ∧
    (∀ i ∈ outstandingSeqs demoClient,
      i ∈ (timeout_handler demoClient 0 (fun _ => (false, true))).timers) ∧
    (dkeys demoClient.window
        = List.range' demoClient.base (demoClient.next_seq_num - demoClient.base) →
      outstandingSeqs demoClient
        = List.range' demoClient.base (demoClient.next_seq_num - demoClient.base)) :=
  timeout_retransmits_whole_window demoClient 0 (fun _ => (false, true)) rfl

/-- C2: an ACK with `ack_number >= base` cancels the timer and removes the
window entry of every sequence number in `[base, ack_number]` and sets
`base = ack_number + 1`; an ACK with `ack_number < base` only increments
`acks_received`; replaying any ACK a second time only increments
`acks_received`. -/
theorem on_ack_cumulative_and_idempotent (c : GBNClient) (a : Nat) :
    (c.base ≤ a →
      (on_ack c a).base = a + 1 ∧
      ∀ s, c.base ≤ s → s ≤ a →
        s ∉ (on_ack c a).timers ∧ dmem s (on_ack c a).window = false) ∧
    (a < c.base → on_ack c a = { c with acks_received := c.acks_received + 1 }) ∧
    on_ack (on_ack c a) a
      = { on_ack c a with acks_received := (on_ack c a).acks_received + 1 } := by
  refine ⟨?_, ?_, ?_⟩
  · intro hb
    refine ⟨by rw [on_ack_base, if_pos hb], ?_⟩
    intro s hs1 hs2
    have hsL : s ∈ List.range' c.base (a + 1 - c.base) :=
      List.mem_range'_1.mpr ⟨hs1, by omega⟩
    have hcontains : (List.range' c.base (a + 1 - c.base)).contains s = true := by
      simpa using hsL
    constructor
    · rw [on_ack_timers_of_ge hb]
      intro hmem
      have h2 := (List.mem_filter.mp hmem).2
      rw [hcontains] at h2
      simp at h2
    · rw [on_ack_window_of_ge hb]
      unfold dmem
      refine List.any_eq_false.mpr ?_
      intro p hp hps
      have hp2 := (List.mem_filter.mp hp).2
      have hpe : p.1 = s := by simpa using hps
      rw [hpe, hcontains] at hp2
      simp at hp2
  · intro hb
    exact on_ack_of_lt hb
  · have hbgt : a < (on_ack c a).base := by
      rw [on_ack_base]
      by_cases hb : c.base ≤ a
      · rw [if_pos hb]; omega
      · rw [if_neg hb]; omega
    exact on_ack_of_lt hbgt

/-- Witness for C2: ACK 0 at `demoClient` slides the base to 1 and clears
sequence number 0, and replaying it is a counter-only no-op. -/
theorem on_ack_cumulative_and_idempotent_witness :
    (on_ack demoClient 0).base = 1 ∧
    0 ∉ (on_ack demoClient 0).timers ∧
    dmem 0 (on_ack demoClient 0).window = false ∧
    on_ack (on_ack demoClient 0) 0
      = { on_ack demoClient 0 with
            acks_received := (on_ack demoClient 0).acks_received + 1 } := by
  obtain ⟨h1, -, h3⟩ := on_ack_cumulative_and_idempotent demoClient 0
  obtain ⟨hb, hrest⟩ := h1 (by decide)
  exact ⟨hb, (hrest 0 (by decide) (by decide)).1, (hrest 0 (by decide) (by decide)).2, h3⟩

/-- C3 counterexample: in the reachable state `demoAcked` the timer for the
already-acknowledged sequence number 0 fires while sequence number 1 is
still outstanding; the handler is not a no-op — it retransmits packet 1
and changes the state. -/
theorem stale_timer_fire_not_noop :
    Reachable demoAcked ∧
    dmem 0 demoAcked.window = false ∧
    demoAcked.running = true ∧
    (timeout_handler demoAcked 0 (fun _ => (false, true))).retransmissions
      = demoAcked.retransmissions + 1 ∧
    timeout_handler demoAcked 0 (fun _ => (false, true)) ≠ demoAcked := by
  refine ⟨?_, by decide, by decide, by decide, by decide⟩
  exact Reachable.ack _ 0 (Reachable.send _ "b" false true
    (Reachable.send _ "a" false true (Reachable.init 3 false)))

/-- C3 (amended): a fired timer is a benign no-op exactly under the code's
conditions — when the client is no longer running, or when no sequence
number of `[base, next_seq_num)` is still in the in-flight window (in
particular whenever the window is empty); a stale timer firing while other
sequence numbers remain outstanding instead retransmits all of them. -/
theorem timeout_noop_when_nothing_outstanding (c : GBNClient) (s : Nat)
    (o : Nat → Bool × Bool) (h : c.running = false ∨ outstandingSeqs c = []) :
    timeout_handler c s o = c := by
  unfold timeout_handler
  rcases h with h | h
  · rw [if_neg (by rw [h]; simp)]
  · by_cases hr : c.running = true
    · rw [if_pos hr]
      refine foldl_timeoutBody_of_none o _ c ?_
      intro i hi
      have hni := List.filter_eq_nil_iff.mp h i hi
      simpa using hni
    · rw [if_neg hr]

/-- Witness for the amended C3: a timeout on the fresh sender (empty
window) changes nothing. -/
theorem timeout_noop_when_nothing_outstanding_witness :
    timeout_handler (initClient 3 false) 0 (fun _ => (false, true))
      = initClient 3 false :=
  timeout_noop_when_nothing_outstanding (initClient 3 false) 0
    (fun _ => (false, true)) (Or.inr rfl)

/-- C4 counterexample: one window-filling step followed by processing the
ACK 5 — a sequence number never sent — reaches a state with
`base = 6 > next_seq_num = 1`, so `next_seq_num - base = -5 < 0` and the
window size (0) differs from `next_seq_num - base`: the claimed invariant
fails for unrestricted ACK-processing steps. -/
theorem window_invariant_cex :
    Reachable demoOvershoot ∧
    ¬ (0 ≤ (demoOvershoot.next_seq_num : ℤ) - (demoOvershoot.base : ℤ) ∧
       (demoOvershoot.next_seq_num : ℤ) - (demoOvershoot.base : ℤ)
         ≤ (demoOvershoot.window_size : ℤ) ∧
       (demoOvershoot.window.length : ℤ)
         = (demoOvershoot.next_seq_num : ℤ) - (demoOvershoot.base : ℤ)) := by
  constructor
  · exact Reachable.ack _ 5 (Reachable.send _ "a" false true (Reachable.init 3 false))
  · decide

/-- C4 (amended): for every sender state reachable by interleavings of
window-filling steps, timer firings and ACK-processing steps in which
every processed ACK satisfies `ack_number < next_seq_num` (as every ACK
produced by the repository's receiver does),
`0 <= next_seq_num - base <= window_size` and the number of in-flight
window entries equals `next_seq_num - base`. -/
theorem window_invariant_conf (c : GBNClient) (h : ReachableConf c) :
    0 ≤ (c.next_seq_num : ℤ) - (c.base : ℤ) ∧
    (c.next_seq_num : ℤ) - (c.base : ℤ) ≤ (c.window_size : ℤ) ∧
    (c.window.length : ℤ) = (c.next_seq_num : ℤ) - (c.base : ℤ) := by
  obtain ⟨h1, h2, h3⟩ := reachableConf_inv h
  have hlen := length_window_of_inv ⟨h1, h2, h3⟩
  refine ⟨by omega, by omega, by omega⟩

/-- Witness for the amended C4 at `demoClient`. -/
theorem window_invariant_conf_witness :
    0 ≤ (demoClient.next_seq_num : ℤ) - (demoClient.base : ℤ) ∧
    (demoClient.next_seq_num : ℤ) - (demoClient.base : ℤ)
      ≤ (demoClient.window_size : ℤ) ∧
    (demoClient.window.length : ℤ)
      = (demoClient.next_seq_num : ℤ) - (demoClient.base : ℤ) :=
  window_invariant_conf demoClient
    (ReachableConf.send _ "b" false true
      (ReachableConf.send _ "a" false true (ReachableConf.init 3 false)))

/-- C9: the ACK path puts no upper bound on the acknowledged number — any
`ack_number >= base` sets `base = ack_number + 1`, and when additionally
`ack_number >= next_seq_num` this moves `base` strictly past
`next_seq_num`; `base <= next_seq_num` is maintained when every processed
ACK satisfies `ack_number < next_seq_num`. -/
theorem ack_overshoots_window :
    (∀ (c : GBNClient) (a : Nat), c.base ≤ a → (on_ack c a).base = a + 1) ∧
    (∀ (c : GBNClient) (a : Nat), c.base ≤ a → c.next_seq_num ≤ a →
      c.next_seq_num < (on_ack c a).base) ∧
    (∀ c : GBNClient, ReachableConf c → c.base ≤ c.next_seq_num) := by
  refine ⟨?_, ?_, ?_⟩
  · intro c a h
    rw [on_ack_base, if_pos h]
  · intro c a h1 h2
    rw [on_ack_base, if_pos h1]
    omega
  · intro c h
    exact (reachableConf_inv h).1

/-- Witness for C9: ACK 5 at the one-packet sender `demoOne` moves the
base to 6, past `next_seq_num = 1`. -/
theorem ack_overshoots_window_witness :
    (on_ack demoOne 5).base = 6 ∧
    demoOne.next_seq_num < (on_ack demoOne 5).base ∧
    (initClient 3 false).base ≤ (initClient 3 false).next_seq_num := by
  obtain ⟨h1, h2, h3⟩ := ack_overshoots_window
  exact ⟨h1 demoOne 5 (by decide), h2 demoOne 5 (by decide) (by decide),
    h3 (initClient 3 false) (ReachableConf.init 3 false)⟩

/-- C10: a successful transmission increments `packets_sent` whether or not
it is a retransmission, and exactly retransmissions additionally increment
`retransmissions`; a lost or failed send increments neither; hence in every
reachable sender state `retransmissions <= packets_sent`. -/
theorem send_packet_counts :
    (∀ (c : GBNClient) (seq : Nat) (d : String) (r coin sendOk : Bool),
      ((c.lossPos && coin) = false → sendOk = true →
        (send_packet c seq d r coin sendOk).packets_sent = c.packets_sent + 1 ∧
        (send_packet c seq d r coin sendOk).retransmissions
          = c.retransmissions + (if r then 1 else 0)) ∧
      ((c.lossPos && coin) = true ∨ sendOk = false →
        (send_packet c seq d r coin sendOk).packets_sent = c.packets_sent ∧
        (send_packet c seq d r coin sendOk).retransmissions = c.retransmissions)) ∧
    (∀ c : GBNClient, Reachable c → c.retransmissions ≤ c.packets_sent) := by
  constructor
  · intro c seq d r coin so
    obtain ⟨h1, h2⟩ := send_packet_counters c seq d r coin so
    constructor
    · intro hl hs
      rw [h1, h2, hl, hs]
      cases r <;> simp
    · rintro (hl | hs)
      · rw [h1, h2, hl]
        simp
      · rw [h1, h2, hs]
        simp
  · intro c h
    exact reachable_retx_le_sent h

/-- Witness for C10: a successful retransmission increments both counters,
a failed send increments neither, and the bound holds at `demoClient`. -/
theorem send_packet_counts_witness :
    (send_packet (initClient 3 false) 0 "a" true false true).packets_sent = 1 ∧
    (send_packet (initClient 3 false) 0 "a" true false true).retransmissions = 1 ∧
    (send_packet (initClient 3 false) 0 "a" true false false).packets_sent = 0 ∧
    demoClient.retransmissions ≤ demoClient.packets_sent := by
  obtain ⟨h1, h2⟩ := send_packet_counts
  refine ⟨((h1 (initClient 3 false) 0 "a" true false true).1 rfl rfl).1, ?_, ?_, ?_⟩
  · have hr := ((h1 (initClient 3 false) 0 "a" true false true).1 rfl rfl).2
    simpa using hr
  · exact ((h1 (initClient 3 false) 0 "a" true false false).2 (Or.inr rfl)).1
  · exact h2 demoClient (Reachable.send _ "b" false true
      (Reachable.send _ "a" false true (Reachable.init 3 false)))

/-! ### Lemmas about `send_ack` -/

@[simp] lemma send_ack_expected (s : GBNServer) (n : Int) (coin so : Bool) :
    (send_ack s n coin so).expected_seq_num = s.expected_seq_num := by
  unfold send_ack
  cases h1 : (s.lossPos && coin) <;> cases so <;> simp

@[simp] lemma send_ack_msgs (s : GBNServer) (n : Int) (coin so : Bool) :
    (send_ack s n coin so).received_messages = s.received_messages := by
  unfold send_ack
  cases h1 : (s.lossPos && coin) <;> cases so <;> simp

@[simp] lemma send_ack_lossPos (s : GBNServer) (n : Int) (coin so : Bool) :
    (send_ack s n coin so).lossPos = s.lossPos := by
  unfold send_ack
  cases h1 : (s.lossPos && coin) <;> cases so <;> simp

@[simp] lemma send_ack_trace (s : GBNServer) (n : Int) (coin so : Bool) :
    (send_ack s n coin so).trace = s.trace ++ [ackEvent s.lossPos coin so n] := by
  unfold send_ack ackEvent
  cases h1 : (s.lossPos && coin) <;> cases so <;> simp

/-! ### Claim theorems: the receiver -/

/-- C5: a well-formed packet whose sequence number differs from
`expected_seq_num` never appends to the received-message log and never
changes `expected_seq_num`. -/
theorem reject_keeps_log_and_cursor (s : GBNServer) (seq : Int) (data : String)
    (coin sendOk : Bool) (h : seq ≠ s.expected_seq_num) :
    (process_packet s (WireInput.ok seq data) coin sendOk).received_messages
        = s.received_messages ∧
    (process_packet s (WireInput.ok seq data) coin sendOk).expected_seq_num
        = s.expected_seq_num := by
  simp only [process_packet]
  rw [if_neg h]
  by_cases hl : 0 ≤ s.last_ack_sent
  · rw [if_pos hl]
    simp
  · rw [if_neg hl]
    exact ⟨rfl, rfl⟩

/-- Witness for C5: the fresh receiver rejects sequence number 3. -/
theorem reject_keeps_log_and_cursor_witness :
    (process_packet (initServer false) (WireInput.ok 3 "x") false true).received_messages
        = (initServer false).received_messages ∧
    (process_packet (initServer false) (WireInput.ok 3 "x") false true).expected_seq_num
        = (initServer false).expected_seq_num :=
  reject_keeps_log_and_cursor (initServer false) 3 "x" false true (by decide)

/-- C6: when a well-formed out-of-order packet is rejected, exactly one
ACK carrying `last_ack_sent` is attempted (one ACK event, whose outcome is
subject to the loss/send oracles) provided `last_ack_sent` has been set
(`>= 0`); when no ACK has ever been sent (`last_ack_sent < 0`), no ACK is
attempted at all. -/
theorem reject_duplicate_ack (s : GBNServer) (seq : Int) (data : String)
    (coin sendOk : Bool) (h : seq ≠ s.expected_seq_num) :
    (0 ≤ s.last_ack_sent →
      (process_packet s (WireInput.ok seq data) coin sendOk).trace
        = s.trace ++ [ackEvent s.lossPos coin sendOk s.last_ack_sent]) ∧
    (s.last_ack_sent < 0 →
      (process_packet s (WireInput.ok seq data) coin sendOk).trace = s.trace) := by
  simp only [process_packet]
  rw [if_neg h]
  constructor
  · intro hl
    rw [if_pos hl]
    simp
  · intro hl
    rw [if_neg (by omega)]

/-- Witness for C6: after the receiver has accepted packet 0 (so
`last_ack_sent = 0`), rejecting packet 5 attempts exactly one duplicate
ACK 0; the fresh receiver (nothing ever acknowledged) attempts none. -/
theorem reject_duplicate_ack_witness :
    (process_packet (process_packet (initServer false) (WireInput.ok 0 "m") false true)
        (WireInput.ok 5 "y") false true).trace
      = (process_packet (initServer false) (WireInput.ok 0 "m") false true).trace
        ++ [ackEvent (process_packet (initServer false) (WireInput.ok 0 "m") false true).lossPos
              false true
              (process_packet (initServer false) (WireInput.ok 0 "m") false true).last_ack_sent] ∧
    (process_packet (initServer false) (WireInput.ok 5 "y") false true).trace
      = (initServer false).trace := by
  constructor
  · exact (reject_duplicate_ack
      (process_packet (initServer false) (WireInput.ok 0 "m") false true)
      5 "y" false true (by decide)).1 (by decide)
  · exact (reject_duplicate_ack (initServer false) 5 "y" false true
      (by decide)).2 (by decide)

/-- C7: malformed input — a datagram that does not decode, or a decoded
record missing a required field — is dropped inside the handler (the
`except` clauses catch it before any counter or state update, since both
field reads precede the first mutation): no exception escapes, no ACK is
sent, and the receiver state, log and counters are all unchanged. -/
theorem malformed_input_dropped (s : GBNServer) (coin sendOk : Bool) :
    process_packet s WireInput.undecodable coin sendOk = s ∧
    process_packet s WireInput.missingField coin sendOk = s :=
  ⟨rfl, rfl⟩

/-! ### Claim theorems: derived metrics -/

/-- C8 counterexample: in `calculate_advanced_metrics` the retransmission
rate divides by `messages_count`, not by `packets_sent` as the claim
states (at sent = 2, retransmissions = 1, messages = 3 the code yields
100/3, which is neither `1/2` nor `100 * 1/2`), and the rates are
percentages (the loss rate at sent = lost = 1 is `50`, i.e. `100` times
the claimed `lost / (sent + lost) = 1/2`). -/
theorem metrics_formula_cex :
    (calculate_advanced_metrics 2 0 1 0 3 1).retransmission_rate
        ≠ specRetransmissionRate 1 2 ∧
    (calculate_advanced_metrics 2 0 1 0 3 1).retransmission_rate
        ≠ 100 * specRetransmissionRate 1 2 ∧
    (calculate_advanced_metrics 1 0 0 1 1 1).effective_loss_rate
        ≠ specLossRate 1 1 ∧
    (calculate_advanced_metrics 1 0 0 1 1 1).effective_loss_rate
        = 100 * specLossRate 1 1 := by
  refine ⟨?_, ?_, ?_, ?_⟩ <;>
    norm_num [calculate_advanced_metrics, specRetransmissionRate, specLossRate]

/-- C8 (amended): the derived metrics are pure functions of the counters
and the elapsed time with these definitions — loss rate
`= 100 * lost / (sent + lost)`, retransmission rate
`= 100 * retransmissions / messages_count` (the demo divides by the
message count, not by `packets_sent`), protocol efficiency
`= 100 * acks_received / packets_sent`, throughput
`= messages / elapsed_time`, goodput `= acks_received / elapsed_time` —
each defined as `0` when its denominator is `0`; the client's printed
statistics use `100 * retransmissions / packets_sent` but are only
computed when `packets_sent > 0`. -/
theorem metrics_formulas (sent acks retx lost msgs : Nat) (t : ℚ) :
    (calculate_advanced_metrics sent acks retx lost msgs t).effective_loss_rate
        = 100 * specLossRate lost sent ∧
    (calculate_advanced_metrics sent acks retx lost msgs t).retransmission_rate
        = 100 * specRetransmissionRate retx msgs ∧
    (calculate_advanced_metrics sent acks retx lost msgs t).protocol_efficiency
        = 100 * specProtocolEfficiency acks sent ∧
    (0 ≤ t → (calculate_advanced_metrics sent acks retx lost msgs t).throughput
        = (if t = 0 then 0 else (msgs : ℚ) / t)) ∧
    (0 ≤ t → (calculate_advanced_metrics sent acks retx lost msgs t).goodput
        = (if t = 0 then 0 else (acks : ℚ) / t)) ∧
    client_printed_rates sent lost retx
        = (if 0 < sent then
            some (100 * specLossRate lost sent,
                  100 * specRetransmissionRate retx sent)
           else none) := by
  refine ⟨?_, ?_, ?_, ?_, ?_, ?_⟩
  · simp only [calculate_advanced_metrics, specLossRate]
    by_cases h : sent + lost = 0
    · rw [if_neg (show ¬ 0 < sent + lost by omega), if_pos h]
      ring
    · rw [if_pos (show 0 < sent + lost by omega), if_neg h]
      ring
  · simp only [calculate_advanced_metrics, specRetransmissionRate]
    by_cases h : msgs = 0
    · rw [if_neg (show ¬ 0 < msgs by omega), if_pos h]
      ring
    · rw [if_pos (show 0 < msgs by omega), if_neg h]
      ring
  · simp only [calculate_advanced_metrics, specProtocolEfficiency]
    by_cases h : sent = 0
    · rw [if_neg (show ¬ 0 < sent by omega), if_pos h]
      ring
    · rw [if_pos (show 0 < sent by omega), if_neg h]
      ring
  · intro ht
    simp only [calculate_advanced_metrics]
    by_cases h : t = 0
    · rw [if_neg (show ¬ 0 < t by rw [h]; simp), if_pos h]
    · rw [if_pos (show 0 < t from lt_of_le_of_ne ht (fun he => h he.symm)), if_neg h]
  · intro ht
    simp only [calculate_advanced_metrics]
    by_cases h : t = 0
    · rw [if_neg (show ¬ 0 < t by rw [h]; simp), if_pos h]
    · rw [if_pos (show 0 < t from lt_of_le_of_ne ht (fun he => h he.symm)), if_neg h]
  · simp only [client_printed_rates, specLossRate, specRetransmissionRate]
    by_cases h : 0 < sent
    · rw [if_pos h, if_pos h, if_neg (show ¬ sent + lost = 0 by omega),
          if_neg (show ¬ sent = 0 by omega)]
      refine congrArg some ?_
      refine Prod.ext ?_ ?_ <;> ring
    · rw [if_neg h, if_neg h]

/-- Witness for the amended C8 at a concrete counter vector with positive
elapsed time. -/
theorem metrics_formulas_witness :
    (calculate_advanced_metrics 2 1 1 1 3 2).throughput
        = (if (2 : ℚ) = 0 then 0 else (3 : ℚ) / 2) ∧
    (calculate_advanced_metrics 2 1 1 1 3 2).goodput
        = (if (2 : ℚ) = 0 then 0 else (1 : ℚ) / 2) ∧
    (calculate_advanced_metrics 2 1 1 1 3 2).retransmission_rate
        = 100 * specRetransmissionRate 1 3 ∧
    client_printed_rates 2 1 1
        = (if 0 < 2 then
            some (100 * specLossRate 1 2, 100 * specRetransmissionRate 1 2)
           else none) := by
  obtain ⟨h1, h2, h3, h4, h5, h6⟩ := metrics_formulas 2 1 1 1 3 2
  exact ⟨h4 (by norm_num), h5 (by norm_num), h2, h6⟩

end GBN
